import Mathlib

/-!
Shallow embedding of the PDF-OCR-to-DOCX pipeline (src/main.py).

Python strings are embedded as `List Char` (`PyStr`) so that Python's
`str.strip`, `str.split('\n\n')`, `str.startswith` and f-string
concatenation become ordinary list operations.  External collaborators
(PyMuPDF rendering, the EasyOCR engine, python-docx serialization) are
modelled as oracles carried by the input data: a `PdfPage` knows whether
it renders, a `PageImage` knows what `reader.readtext` returns for it,
and an `Env` records whether the docx library raises during assembly or
save (the source wraps both in try/except).
-/

namespace OcrApp

abbrev PyStr := List Char

abbrev Bytes := List Nat

/-- Embed a Lean string literal as a Python string value. -/
def lit (s : String) : PyStr := s.toList

/-- Python `str.isspace` characters relevant to `str.strip()`. -/
def isSpace (c : Char) : Bool :=
  c == ' ' || c == '\n' || c == '\t' || c == '\r' || c == '\x0b' || c == '\x0c'

/-- Python `s.strip()`: drop whitespace from both ends. -/
def pyStrip (s : PyStr) : PyStr :=
  (((s.dropWhile isSpace).reverse).dropWhile isSpace).reverse

/-- Python `s.split('\n\n')`: leftmost, non-overlapping, keeps empty pieces,
`''.split` gives `['']`. -/
def splitNN : List Char → List (List Char)
  | [] => [[]]
  | '\n' :: '\n' :: rest => [] :: splitNN rest
  | c :: rest =>
    match splitNN rest with
    | [] => [[c]]
    | p :: ps => (c :: p) :: ps

/-- Python `str(n)` for a natural number. -/
def natStr (n : Nat) : PyStr := (toString n).toList

/-- `get_text(key, lang)` from src/main.py: `TRANSLATIONS.get(lang,
TRANSLATIONS["en"]).get(key, key)`.  Only the `page_separator` key enters the
pipeline's semantics ("Page" for en / fallback, "Seite" for de); the remaining
table entries are UI labels and are modelled by the dictionary fallback. -/
def get_text (key : String) (lang : String) : PyStr :=
  if key == "page_separator" then
    if lang == "de" then lit "Seite" else lit "Page"
  else lit key

/-- One OCR detection: `detection[1]` (the recognized text) is the only field
the pipeline reads; bbox and confidence are dropped by the source. -/
structure Detection where
  text : PyStr
deriving DecidableEq, Repr, Inhabited

/-- What `reader.readtext` does on one page image: returns a detection list or
raises (the per-page `except` branch in `perform_ocr_easyocr`). -/
inductive OcrOutcome where
  | ok (dets : List Detection)
  | engineError
deriving DecidableEq, Repr, Inhabited

/-- A rasterized page image, modelled by the OCR engine's behaviour on it. -/
structure PageImage where
  ocr : OcrOutcome
deriving DecidableEq, Repr, Inhabited

/-- One PDF page, modelled by whether `page.get_pixmap` renders it. -/
structure PdfPage where
  render : Option PageImage
deriving DecidableEq, Repr, Inhabited

/-- A PDF byte buffer, modelled by what `fitz.open` makes of it. -/
inductive Pdf where
  | invalid
  | valid (pages : List PdfPage)
deriving DecidableEq, Repr, Inhabited

/-- `pdf_to_images` (src/main.py:139-164): the whole loop sits in one
try/except, so an invalid buffer or any page render failure yields `None`
(no partial list); otherwise the pages' images in page order. -/
def renderPages : List PdfPage → Option (List PageImage)
  | [] => some []
  | p :: rest =>
    match p.render with
    | none => none
    | some img =>
      match renderPages rest with
      | none => none
      | some imgs => some (img :: imgs)

def pdf_to_images : Pdf → Option (List PageImage)
  | .invalid => none
  | .valid pages => renderPages pages

/-- `page_text` accumulation (src/main.py:192-195): each detection's text
followed by one space. -/
def page_text_of (dets : List Detection) : PyStr :=
  dets.foldl (fun acc d => acc ++ d.text ++ [' ']) []

/-- The separator line `f"\n--- {get_text('page_separator', lang)} {n} ---\n"`
(src/main.py:197). -/
def pageHeader (lang : String) (n : Nat) : PyStr :=
  lit "\n--- " ++ get_text "page_separator" lang ++ lit " " ++ natStr n ++ lit " ---\n"

/-- One iteration of the OCR loop body (src/main.py:174-203) for page index
`i` (0-based): on success the separator line, the stripped page text and a
blank line are appended; an engine exception is caught and the loop
`continue`s, appending nothing for that page. -/
def ocrPage (lang : String) (i : Nat) (img : PageImage) : PyStr :=
  match img.ocr with
  | .engineError => []
  | .ok dets => pageHeader lang (i + 1) ++ pyStrip (page_text_of dets) ++ lit "\n\n"

def ocrPagesFrom (lang : String) : Nat → List PageImage → PyStr
  | _, [] => []
  | i, img :: rest => ocrPage lang i img ++ ocrPagesFrom lang (i + 1) rest

/-- `perform_ocr_easyocr` (src/main.py:167-208): the returned cumulative
extracted text (progress reporting is observational only). -/
def perform_ocr_easyocr (images : List PageImage) (lang : String) : PyStr :=
  ocrPagesFrom lang 0 images

/-- The per-page entries of the extracted document, read off the same loop:
page `i` contributes `(i+1, stripped page text)` when its OCR call succeeds
and nothing when the engine raises.  `ocrPagesFrom_eq_render` below proves
this is exactly the structure serialized into the extracted string. -/
def ocrEntriesFrom (lang : String) : Nat → List PageImage → List (Nat × PyStr)
  | _, [] => []
  | i, img :: rest =>
    match img.ocr with
    | .engineError => ocrEntriesFrom lang (i + 1) rest
    | .ok dets => (i + 1, pyStrip (page_text_of dets)) :: ocrEntriesFrom lang (i + 1) rest

/-- A block of the assembled word document: `doc.add_heading(text, level)` or
`doc.add_paragraph(text)`. -/
inductive DocxBlock where
  | heading (level : Nat) (text : PyStr)
  | paragraph (text : PyStr)
deriving DecidableEq, Repr, Inhabited

structure Docx where
  blocks : List DocxBlock
deriving DecidableEq, Repr, Inhabited

/-- `create_docx` (src/main.py:211-231): a level-0 title heading, then the
text split on blank lines; a piece whose strip starts with
`--- {page_separator}` becomes a level-1 heading, a non-blank piece otherwise
becomes a body paragraph, blank pieces are dropped. -/
def create_docx (text : PyStr) (filename : PyStr) (lang : String) : Docx :=
  let title := DocxBlock.heading 0 (lit "OCR Result: " ++ filename)
  let paragraphs := splitNN text
  let body := paragraphs.filterMap (fun p =>
    if pyStrip p = [] then none
    else if (lit "--- " ++ get_text "page_separator" lang).isPrefixOf (pyStrip p) then
      some (DocxBlock.heading 1 (pyStrip p))
    else
      some (DocxBlock.paragraph (pyStrip p)))
  ⟨title :: body⟩

/-- `doc.save` serialization, modelled as a structure-determined encoding of
the document's blocks (the container format's low-level serialization is an
external collaborator per the spec). -/
def encodeStr (s : PyStr) : Bytes := s.length :: s.map Char.toNat

def encodeBlock : DocxBlock → Bytes
  | .heading lvl t => 0 :: lvl :: encodeStr t
  | .paragraph t => 1 :: encodeStr t

def docx_bytes (d : Docx) : Bytes := (d.blocks.map encodeBlock).flatten

/-- External failure oracle: whether the docx library raises inside
`create_docx` (caught there, returning `None`) and inside `doc.save`
(caught by the caller's try/except). -/
structure Env where
  docx_ok : Bool
  save_ok : Bool
deriving DecidableEq, Repr, Inhabited

def envOK : Env := ⟨true, true⟩

/-- `create_docx` seen with its try/except: `None` when the library raises. -/
def create_docx_checked (env : Env) (text : PyStr) (filename : PyStr) (lang : String) :
    Option Docx :=
  if env.docx_ok then some (create_docx text filename lang) else none

/-- `doc.save(doc_io)` followed by `doc_io.getvalue()`: the serialized bytes,
or an exception propagating to the caller's except branch. -/
def doc_save (env : Env) (d : Docx) : Option Bytes :=
  if env.save_ok then some (docx_bytes d) else none

/-- `Path(name).stem`: the final path component with its last suffix removed;
a dot at position 0 or at the very end is not a suffix (pathlib's
`0 < i < len(name) - 1` rule). -/
def stem (name : PyStr) : PyStr :=
  let base := (name.reverse.takeWhile (fun c => c != '/')).reverse
  match ((base.enum.filter (fun p => p.2 == '.')).map Prod.fst).getLast? with
  | some i => if 0 < i && i + 1 < base.length then base.take i else base
  | none => base

/-- One value of `st.session_state.processed_files` (src/main.py:378-382). -/
structure StoredEntry where
  doc_bytes : Bytes
  extracted_text : PyStr
  original_name : PyStr
deriving DecidableEq, Repr, Inhabited

/-- The session store: a Python dict in insertion order. -/
abbrev Store := List (PyStr × StoredEntry)

def storeKeys (s : Store) : List PyStr := s.map Prod.fst

/-- Python dict assignment `d[k] = v`: overwrite in place when the key exists,
append otherwise. -/
def dictSet (s : Store) (k : PyStr) (v : StoredEntry) : Store :=
  if k ∈ storeKeys s then
    s.map (fun p => if p.1 = k then (k, v) else p)
  else s ++ [(k, v)]

/-- Python dict lookup `d.get(k)`. -/
def storeGet : Store → PyStr → Option StoredEntry
  | [], _ => none
  | (k', v) :: rest, k => if k' = k then some v else storeGet rest k

/-- Number of entries a store holds under one key. -/
def countKey (s : Store) (k : PyStr) : Nat :=
  (s.filter (fun p => p.1 == k)).length

/-- An uploaded file: its name and what the PDF engine makes of its bytes. -/
structure UploadedFile where
  name : PyStr
  pdf : Pdf
deriving DecidableEq, Repr, Inhabited

/-- `f"{original_name}_OCR.docx"` with `original_name = Path(name).stem`. -/
def derivedName (f : UploadedFile) : PyStr := stem f.name ++ lit "_OCR.docx"

/-- `process_single_pdf_with_state` (src/main.py:337-397): rasterize, OCR,
reject when the cumulative text strips to empty, assemble, serialize, then
store under the derived filename; every failure is caught and returns
`False` with the store untouched. -/
def process_single_pdf_with_state (env : Env) (f : UploadedFile) (lang : String)
    (store : Store) : Bool × Store :=
  match pdf_to_images f.pdf with
  | none => (false, store)
  | some images =>
    let extracted_text := perform_ocr_easyocr images lang
    if pyStrip extracted_text = [] then (false, store)
    else
      match create_docx_checked env extracted_text (stem f.name) lang with
      | none => (false, store)
      | some doc =>
        match doc_save env doc with
        | none => (false, store)
        | some doc_bytes_ =>
          (true, dictSet store (derivedName f)
            ⟨doc_bytes_, extracted_text, f.name⟩)

/-- A file's outcome on its own (the store does not influence the boolean). -/
def succeeds (env : Env) (f : UploadedFile) (lang : String) : Bool :=
  (process_single_pdf_with_state env f lang []).1

/-- The entry a successful file registers in the store. -/
def resultEntry (f : UploadedFile) (lang : String) : StoredEntry :=
  let images := (pdf_to_images f.pdf).getD []
  let t := perform_ocr_easyocr images lang
  ⟨docx_bytes (create_docx t (stem f.name) lang), t, f.name⟩

/-- The batch summary `{successCount, totalFiles}` plus the final store. -/
structure BatchResult where
  success_count : Nat
  total_files : Nat
  store : Store
deriving DecidableEq, Repr, Inhabited

/-- The processing loop of `main` (src/main.py:454-468): each uploaded file
goes through `process_single_pdf_with_state`; `success_count` counts the
`True` returns out of `total_files`. -/
def processBatch (env : Env) (files : List UploadedFile) (lang : String)
    (store : Store) : BatchResult :=
  let r := files.foldl (fun acc f =>
    let res := process_single_pdf_with_state env f lang acc.2
    (acc.1 + (if res.1 then 1 else 0), res.2)) ((0 : Nat), store)
  ⟨r.1, files.length, r.2⟩

/-- The archive: a sequence of written entries. -/
structure ZipArchive where
  entries : List (PyStr × Bytes)
deriving DecidableEq, Repr, Inhabited

/-- `zip_file.writestr(filename, doc_bytes)`: append one entry. -/
def zip_writestr (z : ZipArchive) (filename : PyStr) (data : Bytes) : ZipArchive :=
  ⟨z.entries ++ [(filename, data)]⟩

/-- `create_zip_download` (src/main.py:311-320): write every snapshot item,
in iteration order, into a fresh archive. -/
def create_zip_download (processed_files : List (PyStr × Bytes)) : ZipArchive :=
  processed_files.foldl (fun z p => zip_writestr z p.1 p.2) ⟨[]⟩

/-- Unpacking an archive: its `(filename, bytes)` entries in order. -/
def zip_read_entries (z : ZipArchive) : List (PyStr × Bytes) := z.entries

/-- The store evolution of a batch, file by file (used to characterize
`processBatch`'s final store). -/
def storeFold (env : Env) (lang : String) : Store → List UploadedFile → Store
  | s, [] => s
  | s, f :: rest =>
    storeFold env lang
      (if succeeds env f lang then dictSet s (derivedName f) (resultEntry f lang) else s) rest

/-- The derived output names of a batch's successful files, in batch order. -/
def successNames (env : Env) (lang : String) (files : List UploadedFile) : List PyStr :=
  (files.filter (fun f => succeeds env f lang)).map derivedName

/- Concrete inputs used by witnesses and counterexamples. -/

def exImgNoDet : PageImage := ⟨.ok []⟩

def exImgText (s : String) : PageImage := ⟨.ok [⟨lit s⟩]⟩

def exImgErr : PageImage := ⟨.engineError⟩

def exPdf1 (img : PageImage) : Pdf := .valid [⟨some img⟩]

def envBadSave : Env := ⟨true, false⟩

def fileZeroDet : UploadedFile := ⟨lit "report.pdf", exPdf1 exImgNoDet⟩

def imagesTwoOfThree : List PageImage := [exImgText "T1", exImgNoDet, exImgText "T3"]

def imagesErrFirst : List PageImage := [exImgErr, exImgText "x"]

def imagesAllOk : List PageImage := [exImgText "a", exImgNoDet]

def filesFiveBatch : List UploadedFile :=
  [⟨lit "a.pdf", .invalid⟩, ⟨lit "b.pdf", .invalid⟩,
   ⟨lit "c.pdf", exPdf1 (exImgText "c")⟩, ⟨lit "d.pdf", exPdf1 (exImgText "d")⟩,
   ⟨lit "e.pdf", exPdf1 (exImgText "e")⟩]

def pagesBroken : List PdfPage := [⟨some (exImgText "p")⟩, ⟨none⟩]

def pagesRender : List PdfPage := [⟨some (exImgText "p")⟩, ⟨some exImgNoDet⟩]

def fileRepA : UploadedFile := ⟨lit "report.pdf", exPdf1 (exImgText "alpha")⟩

def fileRepB : UploadedFile := ⟨lit "report.pdf", exPdf1 (exImgText "beta")⟩

def fileSaveW : UploadedFile := ⟨lit "w.pdf", exPdf1 (exImgText "w")⟩

/-! ## Shared lemmas -/

theorem pyStrip_eq_nil_iff (s : PyStr) : pyStrip s = [] ↔ ∀ c ∈ s, isSpace c = true := by
  unfold pyStrip
  rw [List.reverse_eq_nil_iff, List.dropWhile_eq_nil_iff]
  constructor
  · intro h c hc
    have hsplit : s.takeWhile isSpace ++ s.dropWhile isSpace = s :=
      List.takeWhile_append_dropWhile isSpace s
    rcases List.mem_append.mp (hsplit ▸ hc) with h1 | h2
    · exact List.mem_takeWhile_imp h1
    · exact h c (List.mem_reverse.mpr h2)
  · intro h c hc
    exact h c ((List.dropWhile_suffix isSpace).subset (List.mem_reverse.mp hc))

theorem pyStrip_ne_nil_of_mem {s : PyStr} {c : Char} (hc : c ∈ s)
    (hcs : isSpace c = false) : pyStrip s ≠ [] := by
  intro h
  have := (pyStrip_eq_nil_iff s).mp h c hc
  rw [hcs] at this
  exact Bool.false_ne_true this

/-- Every page whose OCR call succeeds makes the cumulative text contain a
dash (from its `--- Page n ---` separator line). -/
theorem dash_mem_ocrPagesFrom (lang : String) (i : Nat) (dets : List Detection)
    (rest : List PageImage) :
    '-' ∈ ocrPagesFrom lang i (PageImage.mk (.ok dets) :: rest) := by
  have h1 : '-' ∈ pageHeader lang (i + 1) := by
    unfold pageHeader
    apply List.mem_append_left
    apply List.mem_append_left
    apply List.mem_append_left
    apply List.mem_append_left
    decide
  show '-' ∈ ocrPage lang i ⟨.ok dets⟩ ++ ocrPagesFrom lang (i + 1) rest
  apply List.mem_append_left
  show '-' ∈ pageHeader lang (i + 1) ++ pyStrip (page_text_of dets) ++ lit "\n\n"
  apply List.mem_append_left
  exact List.mem_append_left _ h1

/-- `process_single_pdf_with_state` characterized: the returned flag ignores
the incoming store, and the store is returned untouched on failure and
updated with the file's result entry on success. -/
theorem process_char (env : Env) (f : UploadedFile) (lang : String) (store : Store) :
    process_single_pdf_with_state env f lang store =
      (succeeds env f lang,
       if succeeds env f lang then dictSet store (derivedName f) (resultEntry f lang)
       else store) := by
  unfold succeeds resultEntry process_single_pdf_with_state create_docx_checked doc_save
  cases hp : pdf_to_images f.pdf with
  | none => simp [hp]
  | some images =>
    simp only [hp, Option.getD_some]
    by_cases ht : pyStrip (perform_ocr_easyocr images lang) = []
    · simp [ht]
    · cases hd : env.docx_ok with
      | false => simp [ht, hd]
      | true =>
        cases hs : env.save_ok with
        | false => simp [ht, hd, hs]
        | true => simp [ht, hd, hs, derivedName]

theorem renderPages_length : ∀ {pages : List PdfPage} {images : List PageImage},
    renderPages pages = some images → images.length = pages.length := by
  intro pages
  induction pages with
  | nil => intro images h; simp [renderPages] at h; simp [← h]
  | cons p rest ih =>
    intro images h
    unfold renderPages at h
    cases hr : p.render with
    | none => rw [hr] at h; exact absurd h (by simp)
    | some img =>
      rw [hr] at h
      cases hrest : renderPages rest with
      | none => rw [hrest] at h; exact absurd h (by simp)
      | some imgs =>
        rw [hrest] at h
        have := ih hrest
        simp at h
        simp [← h, List.length_cons, this]

theorem renderPages_get : ∀ {pages : List PdfPage} {images : List PageImage},
    renderPages pages = some images →
    ∀ i (h : i < pages.length) (h' : i < images.length),
      (pages.get ⟨i, h⟩).render = some (images.get ⟨i, h'⟩) := by
  intro pages
  induction pages with
  | nil => intro images _ i h; exact absurd h (by simp)
  | cons p rest ih =>
    intro images hsome i h h'
    unfold renderPages at hsome
    cases hr : p.render with
    | none => rw [hr] at hsome; exact absurd hsome (by simp)
    | some img =>
      rw [hr] at hsome
      cases hrest : renderPages rest with
      | none => rw [hrest] at hsome; exact absurd hsome (by simp)
      | some imgs =>
        rw [hrest] at hsome
        simp at hsome
        subst hsome
        cases i with
        | zero => simpa using hr
        | succ j =>
          have hj : j < rest.length := Nat.lt_of_succ_lt_succ h
          have hj' : j < imgs.length := Nat.lt_of_succ_lt_succ h'
          simpa using ih hrest j hj hj'

theorem renderPages_none_of_broken : ∀ {pages : List PdfPage},
    (∃ p ∈ pages, p.render = none) → renderPages pages = none := by
  intro pages
  induction pages with
  | nil => rintro ⟨p, hp, _⟩; exact absurd hp (by simp)
  | cons q rest ih =>
    rintro ⟨p, hp, hnone⟩
    rcases List.mem_cons.mp hp with h | h
    · subst h; unfold renderPages; rw [hnone]
    · unfold renderPages
      cases hr : q.render with
      | none => rfl
      | some img => rw [ih ⟨p, h, hnone⟩]

theorem renderPages_some_of_ok : ∀ {pages : List PdfPage},
    (∀ p ∈ pages, p.render ≠ none) → ∃ images, renderPages pages = some images := by
  intro pages
  induction pages with
  | nil => intro _; exact ⟨[], rfl⟩
  | cons q rest ih =>
    intro hok
    rcases ih (fun p hp => hok p (List.mem_cons_of_mem q hp)) with ⟨imgs, hrest⟩
    cases hr : q.render with
    | none => exact absurd hr (hok q (List.mem_cons_self q rest))
    | some img =>
      refine ⟨img :: imgs, ?_⟩
      unfold renderPages
      rw [hr, hrest]

theorem zip_fold_entries : ∀ (l : List (PyStr × Bytes)) (z : ZipArchive),
    (l.foldl (fun z p => zip_writestr z p.1 p.2) z).entries = z.entries ++ l := by
  intro l
  induction l with
  | nil => intro z; simp
  | cons p rest ih =>
    intro z
    rw [List.foldl_cons, ih]
    simp [zip_writestr]

theorem storeKeys_append (s t : Store) : storeKeys (s ++ t) = storeKeys s ++ storeKeys t := by
  simp [storeKeys]

theorem dictSet_of_not_mem {s : Store} {k : PyStr} (v : StoredEntry)
    (h : k ∉ storeKeys s) : dictSet s k v = s ++ [(k, v)] := by
  simp [dictSet, h]

theorem storeKeys_dictSet_of_mem {s : Store} {k : PyStr} (v : StoredEntry)
    (h : k ∈ storeKeys s) : storeKeys (dictSet s k v) = storeKeys s := by
  unfold dictSet
  rw [if_pos h]
  simp only [storeKeys, List.map_map]
  apply List.map_congr_left
  intro p _
  by_cases hk : p.1 = k
  · simp [hk]
  · simp [hk]

theorem storeKeys_dictSet_of_not_mem {s : Store} {k : PyStr} (v : StoredEntry)
    (h : k ∉ storeKeys s) : storeKeys (dictSet s k v) = storeKeys s ++ [k] := by
  rw [dictSet_of_not_mem v h, storeKeys_append]
  rfl

theorem length_dictSet_of_mem {s : Store} {k : PyStr} (v : StoredEntry)
    (h : k ∈ storeKeys s) : (dictSet s k v).length = s.length := by
  simp [dictSet, h]

theorem length_dictSet_of_not_mem {s : Store} {k : PyStr} (v : StoredEntry)
    (h : k ∉ storeKeys s) : (dictSet s k v).length = s.length + 1 := by
  simp [dictSet, h]

theorem storeGet_append_single {k : PyStr} (v : StoredEntry) :
    ∀ {s : Store}, k ∉ storeKeys s → storeGet (s ++ [(k, v)]) k = some v := by
  intro s
  induction s with
  | nil => intro _; simp [storeGet]
  | cons p rest ih =>
    intro h
    have hk : p.1 ≠ k := by
      intro hc
      exact h (by simp [storeKeys, hc])
    have hrest : k ∉ storeKeys rest := by
      intro hc
      exact h (by simp [storeKeys] at hc ⊢; exact Or.inr hc)
    cases p with
    | mk k' v' =>
      show storeGet ((k', v') :: (rest ++ [(k, v)])) k = some v
      unfold storeGet
      rw [if_neg hk]
      exact ih hrest

theorem storeGet_map_overwrite {k : PyStr} (v : StoredEntry) :
    ∀ {s : Store}, k ∈ storeKeys s →
      storeGet (s.map (fun p => if p.1 = k then (k, v) else p)) k = some v := by
  intro s
  induction s with
  | nil => intro h; exact absurd h (by simp [storeKeys])
  | cons p rest ih =>
    intro h
    by_cases hk : p.1 = k
    · show storeGet ((if p.1 = k then (k, v) else p) :: _) k = some v
      rw [if_pos hk]
      unfold storeGet
      rw [if_pos rfl]
    · have hrest : k ∈ storeKeys rest := by
        simp [storeKeys] at h
        rcases h with h | h
        · exact absurd h.symm hk
        · simpa [storeKeys] using h
      show storeGet ((if p.1 = k then (k, v) else p) :: _) k = some v
      rw [if_neg hk]
      cases p with
      | mk k' v' =>
        unfold storeGet
        rw [if_neg hk]
        exact ih hrest

/-- After `d[k] = v`, reading `k` gives `v`. -/
theorem storeGet_dictSet (s : Store) (k : PyStr) (v : StoredEntry) :
    storeGet (dictSet s k v) k = some v := by
  by_cases h : k ∈ storeKeys s
  · unfold dictSet
    rw [if_pos h]
    exact storeGet_map_overwrite v h
  · rw [dictSet_of_not_mem v h]
    exact storeGet_append_single v h

theorem countKey_eq_zero_of_not_mem {k : PyStr} :
    ∀ {s : Store}, k ∉ storeKeys s → countKey s k = 0 := by
  intro s
  induction s with
  | nil => intro _; rfl
  | cons p rest ih =>
    intro h
    have hk : (p.1 == k) = false := by
      apply beq_eq_false_iff_ne.mpr
      intro hc
      exact h (by simp [storeKeys, hc])
    have hrest : k ∉ storeKeys rest := by
      intro hc
      exact h (by simp [storeKeys] at hc ⊢; exact Or.inr hc)
    simp only [countKey, List.filter_cons, hk]
    exact ih hrest

theorem countKey_eq_one_of_nodup {k : PyStr} :
    ∀ {s : Store}, (storeKeys s).Nodup → k ∈ storeKeys s → countKey s k = 1 := by
  intro s
  induction s with
  | nil => intro _ h; exact absurd h (by simp [storeKeys])
  | cons p rest ih =>
    intro hnd h
    have hnd' : p.1 ∉ storeKeys rest ∧ (storeKeys rest).Nodup := by
      simpa [storeKeys, List.nodup_cons] using hnd
    by_cases hk : p.1 = k
    · have hz : countKey rest k = 0 := countKey_eq_zero_of_not_mem (hk ▸ hnd'.1)
      simp only [countKey, List.filter_cons, beq_iff_eq, hk, if_pos]
      simp only [countKey] at hz
      simp [hz]
    · have hrest : k ∈ storeKeys rest := by
        simp [storeKeys] at h
        rcases h with h | h
        · exact absurd h.symm hk
        · simpa [storeKeys] using h
      have hkb : (p.1 == k) = false := beq_eq_false_iff_ne.mpr hk
      simp only [countKey, List.filter_cons, hkb]
      exact ih hnd'.2 hrest

theorem countKey_map_overwrite (k : PyStr) (v : StoredEntry) :
    ∀ (s : Store), countKey (s.map (fun p => if p.1 = k then (k, v) else p)) k = countKey s k := by
  intro s
  induction s with
  | nil => rfl
  | cons p rest ih =>
    by_cases hk : p.1 = k
    · simp [countKey, List.filter_cons, hk] at ih ⊢
      exact ih
    · simp [countKey, List.filter_cons, hk] at ih ⊢
      exact ih

/-- After `d[k] = v` on a store with unique keys, exactly one entry holds `k`. -/
theorem countKey_dictSet (s : Store) (k : PyStr) (v : StoredEntry)
    (hnd : (storeKeys s).Nodup) : countKey (dictSet s k v) k = 1 := by
  by_cases h : k ∈ storeKeys s
  · unfold dictSet
    rw [if_pos h, countKey_map_overwrite]
    exact countKey_eq_one_of_nodup hnd h
  · rw [dictSet_of_not_mem v h]
    have hz : countKey s k = 0 := countKey_eq_zero_of_not_mem h
    unfold countKey at hz ⊢
    rw [List.filter_append, List.length_append, hz]
    simp

/-- `d[k] = v` keeps store keys unique. -/
theorem nodup_storeKeys_dictSet (s : Store) (k : PyStr) (v : StoredEntry)
    (hnd : (storeKeys s).Nodup) : (storeKeys (dictSet s k v)).Nodup := by
  by_cases h : k ∈ storeKeys s
  · rw [storeKeys_dictSet_of_mem v h]
    exact hnd
  · rw [storeKeys_dictSet_of_not_mem v h]
    refine List.nodup_append.mpr ⟨hnd, List.nodup_singleton k, ?_⟩
    intro a ha hb
    simp at hb
    exact h (hb ▸ ha)

theorem succeeds_of_render_fail {env : Env} {f : UploadedFile} {lang : String}
    (h : pdf_to_images f.pdf = none) : succeeds env f lang = false := by
  unfold succeeds process_single_pdf_with_state
  rw [h]

theorem batch_foldl (env : Env) (lang : String) : ∀ (files : List UploadedFile)
    (n : Nat) (s : Store),
    files.foldl (fun acc f =>
      let res := process_single_pdf_with_state env f lang acc.2
      (acc.1 + (if res.1 then 1 else 0), res.2)) (n, s)
    = (n + (files.filter (fun f => succeeds env f lang)).length, storeFold env lang s files) := by
  intro files
  induction files with
  | nil => intro n s; simp [storeFold]
  | cons f rest ih =>
    intro n s
    rw [List.foldl_cons]
    cases hb : succeeds env f lang with
    | true =>
      have hstep : (let res := process_single_pdf_with_state env f lang s
          ((n + if res.1 then 1 else 0), res.2))
          = (n + 1, dictSet s (derivedName f) (resultEntry f lang)) := by
        rw [process_char]
        simp [hb]
      rw [hstep, ih]
      simp [List.filter_cons, hb, storeFold]
      omega
    | false =>
      have hstep : (let res := process_single_pdf_with_state env f lang s
          ((n + if res.1 then 1 else 0), res.2)) = (n, s) := by
        rw [process_char]
        simp [hb]
      rw [hstep, ih]
      simp [List.filter_cons, hb, storeFold]

/-- `processBatch` characterized: the summary counts the files that succeed
(each judged independently of the store), and the final store is the fold of
the successful files' entries. -/
theorem processBatch_eq (env : Env) (files : List UploadedFile) (lang : String)
    (store : Store) :
    processBatch env files lang store =
      ⟨(files.filter (fun f => succeeds env f lang)).length, files.length,
        storeFold env lang store files⟩ := by
  unfold processBatch
  rw [batch_foldl]
  simp

theorem storeFold_spec (env : Env) (lang : String) : ∀ (files : List UploadedFile)
    (s : Store), (storeKeys s ++ successNames env lang files).Nodup →
    storeKeys (storeFold env lang s files) = storeKeys s ++ successNames env lang files ∧
    (storeFold env lang s files).length = s.length + (successNames env lang files).length := by
  intro files
  induction files with
  | nil => intro s _; simp [storeFold, successNames]
  | cons f rest ih =>
    intro s h
    cases hb : succeeds env f lang with
    | true =>
      have hsn : successNames env lang (f :: rest)
          = derivedName f :: successNames env lang rest := by
        simp [successNames, List.filter_cons, hb]
      rw [hsn] at h
      have h2 := (@List.perm_middle _ (derivedName f)
        (storeKeys s) (successNames env lang rest)).nodup h
      have hnotin : derivedName f ∉ storeKeys s ++ successNames env lang rest :=
        (List.nodup_cons.mp h2).1
      have hnotins : derivedName f ∉ storeKeys s := fun hc =>
        hnotin (List.mem_append_left _ hc)
      have hkeys := storeKeys_dictSet_of_not_mem (resultEntry f lang) hnotins
      have hlen := length_dictSet_of_not_mem (resultEntry f lang) hnotins
      have hstep : storeFold env lang s (f :: rest) =
          storeFold env lang (dictSet s (derivedName f) (resultEntry f lang)) rest := by
        simp [storeFold, hb]
      have hhyp : (storeKeys (dictSet s (derivedName f) (resultEntry f lang)) ++
          successNames env lang rest).Nodup := by
        rw [hkeys, List.append_assoc, List.singleton_append]
        exact h
      rcases ih (dictSet s (derivedName f) (resultEntry f lang)) hhyp with ⟨ka, la⟩
      constructor
      · rw [hstep, ka, hkeys, List.append_assoc, List.singleton_append, hsn]
      · rw [hstep, la, hlen, hsn]
        simp [List.length_cons]
        omega
    | false =>
      have hsn : successNames env lang (f :: rest) = successNames env lang rest := by
        simp [successNames, List.filter_cons, hb]
      have hstep : storeFold env lang s (f :: rest) = storeFold env lang s rest := by
        simp [storeFold, hb]
      rw [hsn] at h
      rw [hstep, hsn]
      exact ih s h

theorem ocrEntriesFrom_cons (lang : String) (i : Nat) (img : PageImage)
    (rest : List PageImage) :
    ocrEntriesFrom lang i (img :: rest) =
      (match img.ocr with
       | .engineError => ocrEntriesFrom lang (i + 1) rest
       | .ok dets => (i + 1, pyStrip (page_text_of dets)) :: ocrEntriesFrom lang (i + 1) rest) :=
  rfl

/-- The extracted string is exactly the per-page entries rendered in order:
each entry's separator line, its stripped page text, and a blank line.  This
justifies reading `ocrEntriesFrom` as the page structure of the
ExtractedDocument. -/
theorem ocrPagesFrom_eq_render (lang : String) : ∀ (i : Nat) (images : List PageImage),
    ocrPagesFrom lang i images =
      (ocrEntriesFrom lang i images).foldr
        (fun e acc => pageHeader lang e.1 ++ e.2 ++ lit "\n\n" ++ acc) [] := by
  intro i images
  induction images generalizing i with
  | nil => rfl
  | cons img rest ih =>
    have hstep : ocrPagesFrom lang i (img :: rest)
        = ocrPage lang i img ++ ocrPagesFrom lang (i + 1) rest := rfl
    cases himg : img.ocr with
    | engineError =>
      have hop : ocrPage lang i img = [] := by
        unfold ocrPage
        rw [himg]
      rw [hstep, hop, List.nil_append, ih, ocrEntriesFrom_cons, himg]
    | ok dets =>
      have hop : ocrPage lang i img
          = pageHeader lang (i + 1) ++ pyStrip (page_text_of dets) ++ lit "\n\n" := by
        unfold ocrPage
        rw [himg]
      rw [hstep, hop, ih, ocrEntriesFrom_cons, himg]
      simp [List.append_assoc]

/-- With no per-page engine failure, the entries' page indices are exactly
`start+1, start+2, ...`, one per input page. -/
theorem ocrEntries_indices_of_ok (lang : String) : ∀ (images : List PageImage) (i : Nat),
    (∀ img ∈ images, img.ocr ≠ OcrOutcome.engineError) →
    (ocrEntriesFrom lang i images).map Prod.fst = List.range' (i + 1) images.length := by
  intro images
  induction images with
  | nil => intro i _; rfl
  | cons img rest ih =>
    intro i hok
    cases himg : img.ocr with
    | engineError => exact absurd himg (hok img (List.mem_cons_self img rest))
    | ok dets =>
      have hrest := ih (i + 1) (fun im hm => hok im (List.mem_cons_of_mem img hm))
      rw [ocrEntriesFrom_cons, himg, List.map_cons, hrest]
      rfl

/-- An engine failure on the current page contributes no entry; the loop
continues with the remaining pages at the next index. -/
theorem ocrEntries_skip_of_error (lang : String) (i : Nat) (bad : PageImage)
    (rest : List PageImage) (hbad : bad.ocr = OcrOutcome.engineError) :
    ocrEntriesFrom lang i (bad :: rest) = ocrEntriesFrom lang (i + 1) rest := by
  rw [ocrEntriesFrom_cons, hbad]

theorem succeeds_true_of (env : Env) (f : UploadedFile) (lang : String)
    {images : List PageImage} (hr : pdf_to_images f.pdf = some images)
    (ht : pyStrip (perform_ocr_easyocr images lang) ≠ [])
    (hd : env.docx_ok = true) (hs : env.save_ok = true) : succeeds env f lang = true := by
  unfold succeeds process_single_pdf_with_state create_docx_checked doc_save
  rw [hr]
  simp [ht, hd, hs]

/-- When at least one page's OCR call returns (any detections, even zero),
the cumulative extracted string does not strip to empty: it contains the
dashes of a separator line. -/
theorem pyStrip_extracted_ne_nil (lang : String) (dets : List Detection)
    (rest : List PageImage) :
    pyStrip (perform_ocr_easyocr (PageImage.mk (.ok dets) :: rest) lang) ≠ [] :=
  pyStrip_ne_nil_of_mem (dash_mem_ocrPagesFrom lang 0 dets rest) (by decide)

theorem env_flags_of_succeeds {env : Env} {f : UploadedFile} {lang : String}
    (h : succeeds env f lang = true) : env.docx_ok = true ∧ env.save_ok = true := by
  unfold succeeds process_single_pdf_with_state create_docx_checked doc_save at h
  cases hp : pdf_to_images f.pdf with
  | none => rw [hp] at h; simp at h
  | some images =>
    rw [hp] at h
    by_cases ht : pyStrip (perform_ocr_easyocr images lang) = []
    · simp [ht] at h
    · cases hd : env.docx_ok with
      | false => simp [ht, hd] at h
      | true =>
        cases hs : env.save_ok with
        | false => simp [ht, hd, hs] at h
        | true => exact ⟨rfl, rfl⟩

/-! ## Claim theorems -/

/-- Claim C1, counterexample: a one-page file whose OCR run yields zero
detections on its only page is nevertheless processed successfully —
`process_single_pdf_with_state` returns `True` and registers an entry under
`report_OCR.docx` — because the loop's `--- Page 1 ---` separator line makes
the cumulative extracted text non-empty.  This refutes the claim that such a
file always ends FAILED with nothing stored. -/
theorem C1_counterexample :
    (process_single_pdf_with_state envOK fileZeroDet "en" []).1 = true ∧
    (process_single_pdf_with_state envOK fileZeroDet "en" []).2 ≠ [] ∧
    storeGet (process_single_pdf_with_state envOK fileZeroDet "en" []).2
      (lit "report_OCR.docx") ≠ none := by
  decide

/-- Claim C1 (amended): a file whose OCR run yields zero detections on every
page, with at least one page and no engine/render/assembly/save failure, is
STORED, not FAILED: each processed page appends a non-whitespace separator
line, so the cumulative extracted text never strips to empty and the
empty-result check cannot fire.  The file fails on the emptiness check only
when the cumulative extracted string (separators included) is whitespace-only. -/
theorem C1_amended (env : Env) (f : UploadedFile) (lang : String) (store : Store)
    (images : List PageImage)
    (hrender : pdf_to_images f.pdf = some images)
    (hne : images ≠ [])
    (hzero : ∀ img ∈ images, img.ocr = OcrOutcome.ok [])
    (hdocx : env.docx_ok = true) (hsave : env.save_ok = true) :
    (process_single_pdf_with_state env f lang store).1 = true ∧
    (process_single_pdf_with_state env f lang store).2 =
      dictSet store (derivedName f) (resultEntry f lang) := by
  obtain ⟨img, rest, rfl⟩ : ∃ img rest, images = img :: rest := by
    cases images with
    | nil => exact absurd rfl hne
    | cons a b => exact ⟨a, b, rfl⟩
  have himg : img.ocr = OcrOutcome.ok [] := hzero img (List.mem_cons_self img rest)
  have himg' : img = ⟨OcrOutcome.ok []⟩ := by
    cases img
    cases himg
    rfl
  subst himg'
  have ht := pyStrip_extracted_ne_nil lang [] rest
  have hsu := succeeds_true_of env f lang hrender ht hdocx hsave
  rw [process_char]
  simp [hsu]

/-- Claim C1, witness for the amended theorem at a concrete one-page input. -/
theorem C1_amended_witness :
    (process_single_pdf_with_state envOK fileZeroDet "en" []).1 = true ∧
    (process_single_pdf_with_state envOK fileZeroDet "en" []).2 =
      dictSet [] (derivedName fileZeroDet) (resultEntry fileZeroDet "en") :=
  C1_amended envOK fileZeroDet "en" [] [exImgNoDet] (by decide) (by decide)
    (by decide) rfl rfl

/-- Claim C2: the code contradicts it.  For a 3-page document with text on
pages 1 and 3 only, `create_docx` produces three level-1 headings and no body
paragraph at all: the page text lands inside the heading (separator and text
are joined by a single newline, so they survive the blank-line split as one
piece), and the empty page 2 still yields a heading.  The claim's promised
shape — a heading plus one separate body paragraph per non-empty page, and
nothing for empty pages (exactly two subsections here) — does not hold. -/
theorem C2_code_eval :
    (create_docx (perform_ocr_easyocr imagesTwoOfThree "en") (lit "report") "en").blocks =
      [DocxBlock.heading 0 (lit "OCR Result: report"),
       DocxBlock.heading 1 (lit "--- Page 1 ---\nT1"),
       DocxBlock.heading 1 (lit "--- Page 2 ---"),
       DocxBlock.heading 1 (lit "--- Page 3 ---\nT3")] := by
  decide

/-- Claim C3, counterexample: with an engine failure on page 1 of 2, the
extracted document's entries are exactly `[(2, "x")]` — the failing page is
absent altogether (not present with empty text) and the indices are not
contiguous from 1. -/
theorem C3_counterexample :
    ocrEntriesFrom "en" 0 imagesErrFirst = [(2, lit "x")] ∧
    (ocrEntriesFrom "en" 0 imagesErrFirst).map Prod.fst ≠
      List.range' 1 imagesErrFirst.length ∧
    ¬ ∃ e ∈ ocrEntriesFrom "en" 0 imagesErrFirst, e.1 = 1 := by
  decide

/-- Claim C3 (amended): when no page's OCR call raises, every input page
contributes an entry (even with empty text) and the indices are contiguous
starting at 1; a per-page engine failure omits that page's entry entirely —
it is not kept with empty text — while processing continues with the
remaining pages (which keep their original indices) and the file is not
aborted. -/
theorem C3_amended (lang : String) (images : List PageImage)
    (hok : ∀ img ∈ images, img.ocr ≠ OcrOutcome.engineError) :
    ((ocrEntriesFrom lang 0 images).map Prod.fst = List.range' 1 images.length) ∧
    (∀ (i : Nat) (bad : PageImage) (rest : List PageImage),
      bad.ocr = OcrOutcome.engineError →
      ocrEntriesFrom lang i (bad :: rest) = ocrEntriesFrom lang (i + 1) rest) := by
  refine ⟨ocrEntries_indices_of_ok lang images 0 hok, ?_⟩
  intro i bad rest hbad
  exact ocrEntries_skip_of_error lang i bad rest hbad

/-- Claim C3, witness for the amended theorem at a concrete all-ok input. -/
theorem C3_amended_witness :
    ((ocrEntriesFrom "en" 0 imagesAllOk).map Prod.fst = List.range' 1 imagesAllOk.length) ∧
    (∀ (i : Nat) (bad : PageImage) (rest : List PageImage),
      bad.ocr = OcrOutcome.engineError →
      ocrEntriesFrom "en" i (bad :: rest) = ocrEntriesFrom "en" (i + 1) rest) :=
  C3_amended "en" imagesAllOk (by decide)

/-- Claim C4: in a batch started on an empty store (with pairwise-distinct
derived output names), a file whose PDF cannot be parsed is marked failed and
gets no store entry; each file's boolean outcome is independent of the store
(so it equals the outcome the file would have alone); and the final summary
counts successes over total files, with the store holding exactly one entry
per successful file. -/
theorem C4_batch_summary (env : Env) (files : List UploadedFile) (lang : String)
    (hnd : (files.map derivedName).Nodup) :
    (processBatch env files lang []).total_files = files.length ∧
    (processBatch env files lang []).success_count =
      (files.filter (fun f => succeeds env f lang)).length ∧
    (processBatch env files lang []).store.length =
      (files.filter (fun f => succeeds env f lang)).length ∧
    (∀ f ∈ files, pdf_to_images f.pdf = none →
      succeeds env f lang = false ∧
      derivedName f ∉ storeKeys (processBatch env files lang []).store) ∧
    (∀ (f : UploadedFile) (s : Store),
      (process_single_pdf_with_state env f lang s).1 = succeeds env f lang) := by
  have hsub : (successNames env lang files).Nodup := by
    have hsl : (successNames env lang files).Sublist (files.map derivedName) :=
      (List.filter_sublist files).map derivedName
    exact hnd.sublist hsl
  have hnodup0 : (storeKeys ([] : Store) ++ successNames env lang files).Nodup := by
    simpa [storeKeys] using hsub
  rcases storeFold_spec env lang files [] hnodup0 with ⟨hkeys, hlen⟩
  rw [processBatch_eq]
  refine ⟨rfl, rfl, ?_, ?_, ?_⟩
  · show (storeFold env lang [] files).length = _
    rw [hlen]
    simp [successNames]
  · intro f hf hrender
    have hfail := @succeeds_of_render_fail env f lang hrender
    refine ⟨hfail, ?_⟩
    intro hmem
    show False
    rw [hkeys] at hmem
    rw [show storeKeys ([] : Store) ++ successNames env lang files
        = successNames env lang files from rfl] at hmem
    unfold successNames at hmem
    rcases List.mem_map.mp hmem with ⟨g, hg, hgf⟩
    have hgmem : g ∈ files := List.mem_of_mem_filter hg
    have hgsucc := List.of_mem_filter hg
    have hgef : g = f := List.inj_on_of_nodup_map hnd hgmem hf hgf
    rw [hgef, hfail] at hgsucc
    exact Bool.false_ne_true hgsucc
  · intro f s
    rw [process_char]

/-- Claim C4, witness: a batch of 5 files — 2 with unparsable PDFs, 3
succeeding under distinct names — reports successCount=3 of totalFiles=5 and
the store holds exactly 3 entries. -/
theorem C4_batch_summary_witness :
    (processBatch envOK filesFiveBatch "en" []).success_count = 3 ∧
    (processBatch envOK filesFiveBatch "en" []).total_files = 5 ∧
    (processBatch envOK filesFiveBatch "en" []).store.length = 3 := by
  have h := C4_batch_summary envOK filesFiveBatch "en" (by decide)
  exact ⟨h.2.1.trans (by decide), h.1.trans (by decide), h.2.2.1.trans (by decide)⟩

/-- Claim C5: the Rasterizer returns `None` for an invalid buffer and for any
page render failure (all-or-nothing, no partial page list); when every page
renders it returns exactly one image per page, in page order. -/
theorem C5_rasterizer (pages : List PdfPage) :
    pdf_to_images Pdf.invalid = none ∧
    ((∃ p ∈ pages, p.render = none) → pdf_to_images (Pdf.valid pages) = none) ∧
    ((∀ p ∈ pages, p.render ≠ none) →
      ∃ images, pdf_to_images (Pdf.valid pages) = some images) ∧
    (∀ images, pdf_to_images (Pdf.valid pages) = some images →
      images.length = pages.length ∧
      ∀ i (h : i < pages.length) (h' : i < images.length),
        (pages.get ⟨i, h⟩).render = some (images.get ⟨i, h'⟩)) := by
  refine ⟨rfl, ?_, ?_, ?_⟩
  · intro hex
    exact renderPages_none_of_broken hex
  · intro hok
    exact renderPages_some_of_ok hok
  · intro images hsome
    exact ⟨renderPages_length hsome, renderPages_get hsome⟩

/-- Claim C5, witness: a concrete broken 2-page PDF yields `None`, and a
concrete fully-renderable 2-page PDF yields an image list. -/
theorem C5_rasterizer_witness :
    pdf_to_images (Pdf.valid pagesBroken) = none ∧
    ∃ images, pdf_to_images (Pdf.valid pagesRender) = some images :=
  ⟨(C5_rasterizer pagesBroken).2.1 (by decide),
   (C5_rasterizer pagesRender).2.2.1 (by decide)⟩

/-- Claim C6: unpacking the archive built from a non-empty store snapshot
reproduces exactly the `(filename, bytes)` pairs present at bundling time, in
the snapshot's iteration order. -/
theorem C6_zip_roundtrip (snapshot : List (PyStr × Bytes))
    (_hne : snapshot ≠ []) :
    zip_read_entries (create_zip_download snapshot) = snapshot := by
  unfold zip_read_entries create_zip_download
  rw [zip_fold_entries]
  rfl

/-- Claim C6, witness at a concrete two-entry snapshot. -/
theorem C6_zip_roundtrip_witness :
    zip_read_entries (create_zip_download
        [(lit "a_OCR.docx", [1, 2]), (lit "b_OCR.docx", [3])]) =
      [(lit "a_OCR.docx", [1, 2]), (lit "b_OCR.docx", [3])] :=
  C6_zip_roundtrip [(lit "a_OCR.docx", [1, 2]), (lit "b_OCR.docx", [3])] (by decide)

theorem mem_storeKeys_dictSet (s : Store) (k : PyStr) (v : StoredEntry) :
    k ∈ storeKeys (dictSet s k v) := by
  by_cases h : k ∈ storeKeys s
  · rw [storeKeys_dictSet_of_mem v h]
    exact h
  · rw [storeKeys_dictSet_of_not_mem v h]
    exact List.mem_append_right _ (List.mem_singleton.mpr rfl)

/-- Claim C7: when two successfully-processed files derive the same output
name, the second write silently overwrites the first: after both, the store's
keys are still unique, the second write added no new key, exactly one entry
holds the shared name, and it holds the second file's result. -/
theorem C7_overwrite (env : Env) (f1 f2 : UploadedFile) (lang : String) (store : Store)
    (hnd : (storeKeys store).Nodup)
    (hname : derivedName f1 = derivedName f2)
    (h1 : succeeds env f1 lang = true) (h2 : succeeds env f2 lang = true) :
    (storeKeys (process_single_pdf_with_state env f2 lang
        (process_single_pdf_with_state env f1 lang store).2).2).Nodup ∧
    storeKeys (process_single_pdf_with_state env f2 lang
        (process_single_pdf_with_state env f1 lang store).2).2 =
      storeKeys (process_single_pdf_with_state env f1 lang store).2 ∧
    countKey (process_single_pdf_with_state env f2 lang
        (process_single_pdf_with_state env f1 lang store).2).2 (derivedName f2) = 1 ∧
    storeGet (process_single_pdf_with_state env f2 lang
        (process_single_pdf_with_state env f1 lang store).2).2 (derivedName f2) =
      some (resultEntry f2 lang) := by
  rw [process_char env f1, process_char env f2]
  simp only [h1, h2, if_true]
  have hnd1 : (storeKeys (dictSet store (derivedName f1) (resultEntry f1 lang))).Nodup :=
    nodup_storeKeys_dictSet store (derivedName f1) (resultEntry f1 lang) hnd
  have hmem1 : derivedName f2 ∈
      storeKeys (dictSet store (derivedName f1) (resultEntry f1 lang)) :=
    hname ▸ mem_storeKeys_dictSet store (derivedName f1) (resultEntry f1 lang)
  exact ⟨nodup_storeKeys_dictSet _ _ _ hnd1,
    storeKeys_dictSet_of_mem _ hmem1,
    countKey_dictSet _ _ _ hnd1,
    storeGet_dictSet _ _ _⟩

/-- Claim C7, witness: two concrete files both named `report.pdf` processed
in sequence from an empty store. -/
theorem C7_overwrite_witness :
    (storeKeys (process_single_pdf_with_state envOK fileRepB "en"
        (process_single_pdf_with_state envOK fileRepA "en" []).2).2).Nodup ∧
    storeKeys (process_single_pdf_with_state envOK fileRepB "en"
        (process_single_pdf_with_state envOK fileRepA "en" []).2).2 =
      storeKeys (process_single_pdf_with_state envOK fileRepA "en" []).2 ∧
    countKey (process_single_pdf_with_state envOK fileRepB "en"
        (process_single_pdf_with_state envOK fileRepA "en" []).2).2
      (derivedName fileRepB) = 1 ∧
    storeGet (process_single_pdf_with_state envOK fileRepB "en"
        (process_single_pdf_with_state envOK fileRepA "en" []).2).2
      (derivedName fileRepB) = some (resultEntry fileRepB "en") :=
  C7_overwrite envOK fileRepA fileRepB "en" [] (by decide) (by decide)
    (by decide) (by decide)

/-- Claim C8: document assembly is deterministic — serializing the document
assembled from equal extracted texts, equal display names and equal language
settings yields byte-identical output (assembly and serialization are pure
functions of these inputs; no other state enters). -/
theorem C8_deterministic (t1 t2 fn1 fn2 : PyStr) (lang1 lang2 : String)
    (ht : t1 = t2) (hf : fn1 = fn2) (hl : lang1 = lang2) :
    docx_bytes (create_docx t1 fn1 lang1) = docx_bytes (create_docx t2 fn2 lang2) := by
  rw [ht, hf, hl]

/-- Claim C8, witness at a concrete text and name. -/
theorem C8_deterministic_witness :
    docx_bytes (create_docx (lit "t") (lit "n") "en") =
      docx_bytes (create_docx (lit "t") (lit "n") "en") :=
  C8_deterministic (lit "t") (lit "t") (lit "n") (lit "n") "en" "en" rfl rfl rfl

/-- Claim C9: a valid zero-page PDF passes rasterization with an empty image
list (not a failure), OCR over zero pages returns the empty string, and the
file is then always marked failed with nothing stored — the empty-text check
fires and `process_single_pdf_with_state` returns `False` with the store
unchanged, for every environment, name and prior store. -/
theorem C9_zero_page (env : Env) (name : PyStr) (lang : String) (store : Store) :
    pdf_to_images (Pdf.valid []) = some [] ∧
    perform_ocr_easyocr [] lang = [] ∧
    process_single_pdf_with_state env ⟨name, Pdf.valid []⟩ lang store = (false, store) :=
  ⟨rfl, rfl, rfl⟩

/-- Claim C10: per-file processing is atomic with respect to the session
store: whenever it reports failure the store is returned exactly as it was,
and whenever the store changed, assembly and serialization both succeeded and
the call reported success — the store is written only after `doc.save`
succeeded. -/
theorem C10_atomic (env : Env) (f : UploadedFile) (lang : String) (store : Store) :
    ((process_single_pdf_with_state env f lang store).1 = false →
      (process_single_pdf_with_state env f lang store).2 = store) ∧
    ((process_single_pdf_with_state env f lang store).2 ≠ store →
      env.docx_ok = true ∧ env.save_ok = true ∧
      (process_single_pdf_with_state env f lang store).1 = true) := by
  rw [process_char]
  cases hb : succeeds env f lang with
  | false => simp
  | true =>
    constructor
    · intro h
      exact absurd h (by simp)
    · intro _
      rcases env_flags_of_succeeds hb with ⟨hd, hs⟩
      exact ⟨hd, hs, rfl⟩

/-- Claim C10, witness: with a failing `doc.save`, processing a renderable
one-page file reports failure and leaves the empty store empty. -/
theorem C10_atomic_witness :
    (process_single_pdf_with_state envBadSave fileSaveW "en" []).2 = [] :=
  (C10_atomic envBadSave fileSaveW "en" []).1 (by decide)
